import Mathlib

/-!
domoticz_exporter: the self-expiring sample store.

A shallow embedding of `main.go`: the naming policy (`metricName`, `metricHelp`,
`metricType`), the ingestion handler `domoticzPost`, the update worker
`processSamples` and the scrape adapter `Collect`.

Modelling conventions.
* `time.Time` is an integer count of nanoseconds on one clock; `After` is the strict
  order and `Add` is addition.
* `float64` values are only stored and copied by the program; they are represented by
  their 64-bit pattern, and the two places where a float is computed
  (`strconv.ParseFloat` inside the JSON decoder and `float64(ns) / 1e9`) are taken as
  parameters (`Float64Ops`).
* The Go map `map[uint32]*domoticzSample` is an association list; the order of its
  entries stands for Go's unspecified iteration order.
* `prometheus.NewDesc` validates the metric name and the label names, and
  `MustNewConstMetric` panics on a descriptor that failed validation; `Collect` returns
  the metrics it sent together with whether it ended in that panic.
* The goroutines are sequentialised: the worker processes one event at a time, and a
  push is applied by the worker when its hand-off on the zero-capacity channel is
  accepted.
-/

namespace Domoticz

/-! ## Data model -/

/-- An IEEE-754 binary64 value, given by its bit pattern. -/
structure float64 where
  bits : Nat
deriving DecidableEq, Repr

/-- The zero value of `float64` (`+0.0`). -/
def float64.zero : float64 := ⟨0⟩

/-- The floating-point computations the program delegates to the runtime. -/
structure Float64Ops where
  /-- `strconv.ParseFloat(lit, 64)`, `none` on a range error. -/
  parseFloat : String → Option float64
  /-- `float64(ns) / 1e9` for a Unix time in nanoseconds. -/
  unixSeconds : Int → float64

/-- `time.Time`: nanoseconds on a single clock. -/
abbrev Time := Int

/-- `time.Second` as a `time.Duration` (nanoseconds). -/
def Second : Int := 1000000000

/-- `t.After(u)`. -/
def Time.After (t u : Time) : Bool := decide (u < t)

/-- `t.Add(d)`. -/
def Time.Add (t : Time) (d : Int) : Time := t + d

/-- `prometheus.ValueType` restricted to the two values the program uses. -/
inductive ValueType where
  | CounterValue
  | GaugeValue
deriving DecidableEq, Repr

/-- The decoded push report (`type domoticzMetric struct`). -/
structure domoticzMetric where
  Id : Nat
  Type_ : String
  SType : String
  Name : String
  Value : float64
  Time : String
  Unit : String
deriving DecidableEq, Repr

/-- The zero value of `domoticzMetric`, as `var postedMetric domoticzMetric` creates it. -/
def domoticzMetric.zero : domoticzMetric :=
  ⟨0, "", "", "", float64.zero, "", ""⟩

/-- The stored record (`type domoticzSample struct`). -/
structure domoticzSample where
  Id : Nat
  Name : String
  Labels : List (String × String)
  Help : String
  Value : float64
  DType : String
  Dstype : String
  Time : float64
  Type_ : ValueType
  Unit : String
  Expires : Domoticz.Time
deriving DecidableEq, Repr

/-! ## Naming policy -/

/-- `fmt.Sprintf("%d", n)` for an unsigned integer. -/
def sprintfD (n : Nat) : String := String.mk (Nat.toDigits 10 n)

/-- `func metricName(m domoticzMetric) string`. -/
def metricName (m : domoticzMetric) : String :=
  let result := "domoticz"
  let result := result ++ "_"
  let result := result ++ sprintfD m.Id
  let result := result ++ "_"
  let result := result ++ m.Type_
  let result := result ++ "_"
  let result := result ++ m.SType
  result

/-- `func metricHelp(m domoticzMetric) string`. -/
def metricHelp (m : domoticzMetric) : String :=
  "Domoticz exporter: Type: '" ++ m.Type_ ++ "' Dstype: '" ++ m.SType ++
    "' Dsname: '" ++ m.Name ++ "' Unit: '" ++ m.Unit ++ "'"

/-- `func metricType(dstype string) prometheus.ValueType`. -/
def metricType (dstype : String) : ValueType :=
  if dstype = "counter" ∨ dstype = "derive" then ValueType.CounterValue
  else ValueType.GaugeValue

/-- The sample literal built in `domoticzPost` from the decoded report and `now`;
fields the literal does not mention keep their zero value. -/
def newSample (postedMetric : domoticzMetric) (now : Time) : domoticzSample where
  Id := postedMetric.Id
  Name := metricName postedMetric
  Labels := []
  Help := metricHelp postedMetric
  Value := postedMetric.Value
  DType := ""
  Dstype := ""
  Time := float64.zero
  Type_ := metricType postedMetric.Name
  Unit := ""
  Expires := Time.Add now (300 * Second * 2)

/-! ## The sample store -/

/-- The Go map `map[uint32]*domoticzSample`, as key/record pairs. -/
abbrev SampleMap := List (Nat × domoticzSample)

/-- Go `delete(m, k)`. -/
def mapDelete (m : SampleMap) (k : Nat) : SampleMap :=
  m.filter (fun e => e.1 != k)

/-- Go `m[k] = v`: whatever was stored under `k` is dropped and `v` takes its place. -/
def mapAssign (m : SampleMap) (k : Nat) (v : domoticzSample) : SampleMap :=
  mapDelete m k ++ [(k, v)]

/-- Go `m[k]` with the presence flag. -/
def mapLookup (m : SampleMap) (k : Nat) : Option domoticzSample :=
  (m.find? (fun e => e.1 == k)).map Prod.snd

/-- The keys of a Go map are pairwise distinct. -/
def mapWF (m : SampleMap) : Prop := (m.map Prod.fst).Nodup

instance (m : SampleMap) : Decidable (mapWF m) := by
  unfold mapWF; infer_instance

/-- The collector (`type domoticzCollector struct`); the mutex and the channel are
synchronisation only and carry no state between events. -/
structure domoticzCollector where
  samples : SampleMap
deriving DecidableEq, Repr

/-- `func newDomoticzCollector()`: an empty store. -/
def newDomoticzCollector : domoticzCollector := ⟨[]⟩

/-! ## Update worker -/

/-- The two sources of the worker's `select`. -/
inductive WorkerEvent where
  /-- `case sample := <-c.ch`. -/
  | sample (s : domoticzSample)
  /-- `case <-ticker`, with the value `time.Now()` returns in that branch. -/
  | ticker (now : Time)
deriving DecidableEq, Repr

/-- The garbage-collection loop of the ticker branch:
`for k, sample := range c.samples { if now.After(sample.Expires) { delete(c.samples, k) } }`. -/
def sweepExpired (samples : SampleMap) (now : Time) : SampleMap :=
  samples.foldl
    (fun acc e => if Time.After now e.2.Expires then mapDelete acc e.1 else acc) samples

/-- One iteration of the `for { select { ... } }` loop of `processSamples`. -/
def processSamples (c : domoticzCollector) : WorkerEvent → domoticzCollector
  | WorkerEvent.sample s => ⟨mapAssign c.samples s.Id s⟩
  | WorkerEvent.ticker now => ⟨sweepExpired c.samples now⟩

/-- The worker loop run over a finite sequence of events. -/
def runWorker (c : domoticzCollector) (evs : List WorkerEvent) : domoticzCollector :=
  evs.foldl processSamples c

/-! ## Collector -/

/-- What a `prometheus.Metric` exposes: the descriptor's name, help and constant
labels, the value type and the value. -/
structure Metric where
  Name : String
  Help : String
  Labels : List (String × String)
  Type_ : ValueType
  Value : float64
deriving DecidableEq, Repr

/-- The package-level gauge `lastPush` holding value `v`. -/
def lastPushMetric (v : float64) : Metric :=
  ⟨"domoticz_last_push_timestamp_seconds",
   "Unix timestamp of the last received domoticz metrics push in seconds.",
   [], ValueType.GaugeValue, v⟩

/-- The first rune of a metric name the client library accepts: an ASCII letter,
`_` or `:`. -/
def isNameStart (c : Char) : Bool := c.isAlpha || c == '_' || c == ':'

/-- A later rune of a metric name the client library accepts: an ASCII letter or digit,
`_` or `:`. -/
def isNameChar (c : Char) : Bool := c.isAlphanum || c == '_' || c == ':'

/-- The client library's `model.IsValidMetricName` (the pattern
`[a-zA-Z_:][a-zA-Z0-9_:]*`), which `prometheus.NewDesc` applies to the name. -/
def IsValidMetricName (name : String) : Bool :=
  match name.data with
  | [] => false
  | c :: cs => isNameStart c && cs.all isNameChar

/-- The client library's check of a constant label name in `prometheus.NewDesc`: the
pattern `[a-zA-Z_][a-zA-Z0-9_]*`, and not the reserved prefix `__`. -/
def checkLabelName (l : String) : Bool :=
  match l.data with
  | [] => false
  | c :: cs =>
    (c.isAlpha || c == '_') && cs.all (fun d => d.isAlphanum || d == '_') &&
      !("__".data.isPrefixOf l.data)

/-- Whether `prometheus.NewDesc(name, help, []string{}, labels)` yields a descriptor
without error: the name is a valid metric name and every label name passes. -/
def descAccepted (name : String) (labels : List (String × String)) : Bool :=
  IsValidMetricName name && labels.all (fun l => checkLabelName l.1)

/-- `prometheus.MustNewConstMetric(prometheus.NewDesc(name, help, []string{}, labels), t, v)`;
`none` stands for the panic raised when the descriptor carries an error. -/
def MustNewConstMetric (name help : String) (labels : List (String × String))
    (t : ValueType) (v : float64) : Option Metric :=
  if descAccepted name labels then some ⟨name, help, labels, t, v⟩ else none

/-- What one call of `Collect` does: the metrics sent on `ch`, in order, and whether the
call ended in a panic instead of returning. -/
structure CollectResult where
  sent : List Metric
  panicked : Bool
deriving DecidableEq, Repr

/-- One iteration of the emission loop of `Collect`,
`for _, sample := range samples { if now.After(sample.Expires) { continue }; ch <- MustNewConstMetric(...) }`;
after a panic nothing more runs. -/
def collectStep (now : Time) (r : CollectResult) (sample : domoticzSample) : CollectResult :=
  if r.panicked then r
  else if Time.After now sample.Expires then r
  else
    match MustNewConstMetric sample.Name sample.Help sample.Labels
            sample.Type_ sample.Value with
    | none => ⟨r.sent, true⟩
    | some metric => ⟨r.sent ++ [metric], false⟩

/-- `func (c domoticzCollector) Collect(ch chan<- prometheus.Metric)`. `lastPush` is the
gauge's current value and `now` the value of `time.Now()` read after the snapshot. -/
def Collect (lastPush : float64) (c : domoticzCollector) (now : Time) : CollectResult :=
  let ch := [lastPushMetric lastPush]
  let samples := c.samples.foldl (fun samples e => samples ++ [e.2]) []
  samples.foldl (collectStep now) ⟨ch, false⟩

/-! ## Ingestion endpoint -/

/-- A JSON value; a number keeps its literal text. -/
inductive JSON where
  | null
  | bool (b : Bool)
  | number (lit : String)
  | string (s : String)
  | array (elems : List JSON)
  | object (members : List (String × JSON))

/-- The exported fields of `domoticzMetric` that `encoding/json` can fill. -/
inductive Field where
  | Id | Type_ | SType | Name | Value | Time | Unit
deriving DecidableEq, Repr

/-- The Go name of a field. -/
def Field.goName : Field → String
  | Field.Id => "Id"
  | Field.Type_ => "Type"
  | Field.SType => "SType"
  | Field.Name => "Name"
  | Field.Value => "Value"
  | Field.Time => "Time"
  | Field.Unit => "Unit"

/-- The fields in declaration order. -/
def Field.all : List Field :=
  [Field.Id, Field.Type_, Field.SType, Field.Name, Field.Value, Field.Time, Field.Unit]

/-- Case folding of one rune as `encoding/json` does it when matching keys: ASCII
letters to upper case, and the two non-ASCII runes whose fold orbit contains an ASCII
letter (U+017F and U+212A) to that letter. -/
def foldRune (c : Char) : Char :=
  if 'a' ≤ c ∧ c ≤ 'z' then Char.ofNat (c.toNat - 32)
  else if c = Char.ofNat 0x17F then 'S'
  else if c = Char.ofNat 0x212A then 'K'
  else c

/-- Case folding of a key. -/
def foldName (s : String) : String := String.mk (s.data.map foldRune)

/-- The struct field an object key is stored into: an exact name match first, a
case-insensitive one otherwise; unknown keys are skipped. -/
def lookupField (key : String) : Option Field :=
  match Field.all.find? (fun f => f.goName == key) with
  | some f => some f
  | none => Field.all.find? (fun f => foldName f.goName == foldName key)

/-- `strconv.ParseUint(lit, 10, 64)` followed by the `uint32` overflow check. -/
def parseUint32 (lit : String) : Option Nat :=
  if lit.data ≠ [] ∧ lit.data.all Char.isDigit then
    let n := lit.data.foldl (fun n c => 10 * n + (c.toNat - 48)) 0
    if n < 2 ^ 32 then some n else none
  else none

/-- Storing one JSON value into one field: `null` leaves the field alone, a value of
the field's JSON type is stored, anything else is an `UnmarshalTypeError`. -/
def storeField (ops : Float64Ops) (m : domoticzMetric) (f : Field) (v : JSON) :
    Option domoticzMetric :=
  match f, v with
  | _, JSON.null => some m
  | Field.Id, JSON.number lit => (parseUint32 lit).map (fun n => { m with Id := n })
  | Field.Value, JSON.number lit => (ops.parseFloat lit).map (fun x => { m with Value := x })
  | Field.Type_, JSON.string s => some { m with Type_ := s }
  | Field.SType, JSON.string s => some { m with SType := s }
  | Field.Name, JSON.string s => some { m with Name := s }
  | Field.Time, JSON.string s => some { m with Time := s }
  | Field.Unit, JSON.string s => some { m with Unit := s }
  | _, _ => none

/-- Decoding the members of a JSON object into the struct, left to right; `none` when
some member raised an error (the decoder then returns a non-nil `err`). -/
def decodeMembers (ops : Float64Ops) :
    List (String × JSON) → domoticzMetric → Option domoticzMetric
  | [], m => some m
  | (key, v) :: rest, m =>
    match lookupField key with
    | none => decodeMembers ops rest m
    | some f =>
      match storeField ops m f v with
      | none => none
      | some m1 => decodeMembers ops rest m1

/-- `json.NewDecoder(r.Body).Decode(&postedMetric)` on a fresh `postedMetric`: `none`
stands for `err != nil`. The body is given by the JSON value it spells, `none` when
it spells none (syntax error, empty body). -/
def Decode (ops : Float64Ops) (body : Option JSON) : Option domoticzMetric :=
  match body with
  | none => none
  | some JSON.null => some domoticzMetric.zero
  | some (JSON.object members) => decodeMembers ops members domoticzMetric.zero
  | some _ => none

/-- `http.StatusBadRequest`. -/
def StatusBadRequest : Nat := 400

/-- `http.StatusOK`, the status of a handler that never calls `WriteHeader`. -/
def StatusOK : Nat := 200

/-- What one call of `domoticzPost` does: the response status, the value of the
`lastPush` gauge afterwards, and the sample sent on `c.ch`, if any. -/
structure PostResult where
  status : Nat
  lastPush : float64
  sent : Option domoticzSample
deriving DecidableEq, Repr

/-- `func (c *domoticzCollector) domoticzPost(w, r)`; `lastPush` is the gauge's value
before the call and `now` the value `time.Now()` returns. -/
def domoticzPost (ops : Float64Ops) (lastPush : float64) (body : Option JSON)
    (now : Time) : PostResult :=
  match Decode ops body with
  | none => ⟨StatusBadRequest, lastPush, none⟩
  | some postedMetric =>
    ⟨StatusOK, ops.unixSeconds now, some (newSample postedMetric now)⟩

/-- The process state shared by the handlers: the `lastPush` gauge and the collector. -/
structure Exporter where
  lastPush : float64
  c : domoticzCollector
deriving DecidableEq, Repr

/-- The state at start-up: the gauge at zero and an empty store. -/
def Exporter.init : Exporter := ⟨float64.zero, newDomoticzCollector⟩

/-- One push request served to completion: the handler runs and the worker applies
the sample it was handed, if any. -/
def servePost (ops : Float64Ops) (x : Exporter) (body : Option JSON) (now : Time) :
    Nat × Exporter :=
  let r := domoticzPost ops x.lastPush body now
  match r.sent with
  | none => (r.status, ⟨r.lastPush, x.c⟩)
  | some s => (r.status, ⟨r.lastPush, processSamples x.c (WorkerEvent.sample s)⟩)

/-- One scrape: `Collect` on the current state. -/
def scrape (x : Exporter) (now : Time) : CollectResult :=
  Collect x.lastPush x.c now

end Domoticz

namespace Domoticz

/-! ## Auxiliary notions used in the statements -/

/-- The metric `Collect` sends for a stored record whose descriptor is accepted. -/
def sampleMetric (s : domoticzSample) : Metric :=
  ⟨s.Name, s.Help, s.Labels, s.Type_, s.Value⟩

/-- The descriptor built from a stored record is accepted by the client library. -/
def sampleAccepted (s : domoticzSample) : Bool := descAccepted s.Name s.Labels

/-- A stored record is expired at `now` when `now` is after its `Expires`. -/
def expiredAt (now : Time) (s : domoticzSample) : Bool := Time.After now s.Expires

/-- The records a scrape at `now` reaches the metric constructor with. -/
def liveSamples (c : domoticzCollector) (now : Time) : List domoticzSample :=
  (c.samples.map Prod.snd).filter (fun s => !expiredAt now s)

/-- The sample metrics of a scrape: everything `Collect` emits after its first metric. -/
def sampleMetrics (lastPush : float64) (c : domoticzCollector) (now : Time) : List Metric :=
  (Collect lastPush c now).sent.tail

/-- The two reports agree on field `f`. -/
def sameField (f : Field) (a b : domoticzMetric) : Prop :=
  match f with
  | Field.Id => a.Id = b.Id
  | Field.Type_ => a.Type_ = b.Type_
  | Field.SType => a.SType = b.SType
  | Field.Name => a.Name = b.Name
  | Field.Value => a.Value = b.Value
  | Field.Time => a.Time = b.Time
  | Field.Unit => a.Unit = b.Unit

/-- An object member the decoder does not object to: its key names no field, or its
value is one the named field accepts. -/
def memberAccepted (ops : Float64Ops) (kv : String × JSON) : Bool :=
  match lookupField kv.1 with
  | none => true
  | some f => (storeField ops domoticzMetric.zero f kv.2).isSome

/-- The number a list of decimal digit characters spells, continuing from `acc`. -/
def digitsValue (acc : Nat) (ds : List Char) : Nat :=
  ds.foldl (fun n c => 10 * n + (c.toNat - 48)) acc

/-- The records under `k` are all equal to `r`. -/
def onlyRecord (k : Nat) (r : domoticzSample) (m : SampleMap) : Prop :=
  ∀ e ∈ m, e.1 = k → e.2 = r

/-- Float operations for evaluating concrete inputs; they agree with the runtime on
the inputs used below (the literal `12.3`, and the Unix times 0 s and 1 s). -/
def exampleOps : Float64Ops where
  parseFloat lit := if lit = "12.3" then some ⟨0x402899999999999A⟩ else some ⟨0⟩
  unixSeconds ns := if ns = 1000000000 then ⟨0x3FF0000000000000⟩ else ⟨0⟩

/-! ## Lemmas on the store operations -/

theorem snapshot_eq (m : SampleMap) (acc : List domoticzSample) :
    m.foldl (fun samples e => samples ++ [e.2]) acc = acc ++ m.map Prod.snd := by
  induction m generalizing acc with
  | nil => simp
  | cons e m ih => simp [List.foldl_cons, ih]

theorem emit_panicked (now : Time) (samples : List domoticzSample) (ch : List Metric) :
    samples.foldl (collectStep now) ⟨ch, true⟩ = ⟨ch, true⟩ := by
  induction samples with
  | nil => rfl
  | cons s samples ih =>
    rw [List.foldl_cons]
    have hstep : collectStep now ⟨ch, true⟩ s = ⟨ch, true⟩ := by simp [collectStep]
    rw [hstep, ih]

theorem emit_eq (now : Time) (samples : List domoticzSample) (ch : List Metric) :
    samples.foldl (collectStep now) ⟨ch, false⟩
      = ⟨ch ++ ((samples.filter (fun s => !expiredAt now s)).takeWhile sampleAccepted).map
                sampleMetric,
         !((samples.filter (fun s => !expiredAt now s)).all sampleAccepted)⟩ := by
  induction samples generalizing ch with
  | nil => simp
  | cons s samples ih =>
    rw [List.foldl_cons]
    by_cases h : Time.After now s.Expires = true
    · have hstep : collectStep now ⟨ch, false⟩ s = ⟨ch, false⟩ := by simp [collectStep, h]
      rw [hstep, ih]
      simp [expiredAt, h]
    · by_cases hok : descAccepted s.Name s.Labels = true
      · have hstep : collectStep now ⟨ch, false⟩ s = ⟨ch ++ [sampleMetric s], false⟩ := by
          simp [collectStep, h, MustNewConstMetric, hok, sampleMetric]
        rw [hstep, ih]
        simp [expiredAt, h, sampleAccepted, hok, List.takeWhile_cons]
      · have hstep : collectStep now ⟨ch, false⟩ s = ⟨ch, true⟩ := by
          simp [collectStep, h, MustNewConstMetric, hok]
        rw [hstep, emit_panicked]
        simp [expiredAt, h, sampleAccepted, hok, List.takeWhile_cons]

theorem Collect_eq (lastPush : float64) (c : domoticzCollector) (now : Time) :
    Collect lastPush c now
      = ⟨lastPushMetric lastPush ::
          ((liveSamples c now).takeWhile sampleAccepted).map sampleMetric,
         !((liveSamples c now).all sampleAccepted)⟩ := by
  unfold Collect liveSamples
  simp only [snapshot_eq, emit_eq]
  simp

theorem Collect_eq_of_accepted (lastPush : float64) (c : domoticzCollector) (now : Time)
    (h : ∀ s ∈ liveSamples c now, sampleAccepted s = true) :
    Collect lastPush c now
      = ⟨lastPushMetric lastPush :: (liveSamples c now).map sampleMetric, false⟩ := by
  rw [Collect_eq]
  have hall : (liveSamples c now).all sampleAccepted = true := List.all_eq_true.mpr h
  have htw : (liveSamples c now).takeWhile sampleAccepted = liveSamples c now :=
    List.takeWhile_eq_self_iff.mpr h
  rw [hall, htw]
  rfl

theorem sweep_fold_eq (now : Time) (l acc : SampleMap) :
    l.foldl (fun acc e => if Time.After now e.2.Expires then mapDelete acc e.1 else acc) acc
      = acc.filter (fun e => !(l.any (fun d => d.1 == e.1 && expiredAt now d.2))) := by
  induction l generalizing acc with
  | nil => simp
  | cons x l ih =>
    rw [List.foldl_cons, ih]
    by_cases h : Time.After now x.2.Expires = true
    · simp only [h, if_true, mapDelete, List.filter_filter]
      apply List.filter_congr
      intro e _
      have hk : (e.1 != x.1) = !(x.1 == e.1) := by
        by_cases hx : x.1 = e.1
        · simp [hx]
        · have hx2 : ¬ e.1 = x.1 := fun h2 => hx h2.symm
          simp [hx, hx2, bne]
      simp [expiredAt, h, hk]
      exact Bool.and_comm _ _
    · simp only [h]
      apply List.filter_congr
      intro e _
      simp [expiredAt, h]

/-! ## Lemmas on the decimal rendering of the id -/

theorem digitChar_value (k : Nat) (hk : k < 10) : (Nat.digitChar k).toNat - 48 = k := by
  interval_cases k <;> decide

theorem digitChar_ne_underscore (k : Nat) (hk : k < 10) : Nat.digitChar k ≠ '_' := by
  interval_cases k <;> decide

theorem toDigitsCore_value (fuel : Nat) :
    ∀ (n : Nat) (ds : List Char), n < fuel →
      digitsValue 0 (Nat.toDigitsCore 10 fuel n ds) = digitsValue n ds := by
  induction fuel with
  | zero => intro n ds h; omega
  | succ fuel ih =>
    intro n ds h
    have hmod : n % 10 < 10 := Nat.mod_lt _ (by decide)
    simp only [Nat.toDigitsCore]
    by_cases h0 : n / 10 = 0
    · simp only [h0, if_true]
      have hn : n % 10 = n := by omega
      have hv := digitChar_value _ hmod
      rw [hn] at hv
      simp [digitsValue, List.foldl_cons, hn, hv]
    · simp only [h0, if_false]
      rw [ih (n / 10) _ (by omega)]
      simp only [digitsValue, List.foldl_cons, digitChar_value _ hmod]
      congr 1
      omega

theorem toDigitsCore_no_underscore (fuel : Nat) :
    ∀ (n : Nat) (ds : List Char), (∀ c ∈ ds, c ≠ '_') →
      ∀ c ∈ Nat.toDigitsCore 10 fuel n ds, c ≠ '_' := by
  induction fuel with
  | zero => intro n ds h; simpa [Nat.toDigitsCore] using h
  | succ fuel ih =>
    intro n ds h
    have hmod : n % 10 < 10 := Nat.mod_lt _ (by decide)
    have hcons : ∀ c ∈ Nat.digitChar (n % 10) :: ds, c ≠ '_' := by
      intro c hc
      rcases List.mem_cons.mp hc with rfl | hc
      · exact digitChar_ne_underscore _ hmod
      · exact h c hc
    simp only [Nat.toDigitsCore]
    by_cases h0 : n / 10 = 0
    · simpa only [h0, if_true] using hcons
    · simpa only [h0, if_false] using ih (n / 10) _ hcons

theorem toDigits_injective (a b : Nat) (h : Nat.toDigits 10 a = Nat.toDigits 10 b) : a = b := by
  have ha := toDigitsCore_value (a + 1) a [] (by omega)
  have hb := toDigitsCore_value (b + 1) b [] (by omega)
  simp only [Nat.toDigits] at h
  rw [h, hb] at ha
  simpa [digitsValue] using ha.symm

theorem toDigits_no_underscore (a : Nat) : ∀ c ∈ Nat.toDigits 10 a, c ≠ '_' :=
  toDigitsCore_no_underscore (a + 1) a [] (by simp)

/-- Two texts that each start with a run free of the separator, followed by the
separator, agree only if the runs agree. -/
theorem run_before_separator (sep : Char) :
    ∀ (d1 d2 r1 r2 : List Char), (∀ c ∈ d1, c ≠ sep) → (∀ c ∈ d2, c ≠ sep) →
      d1 ++ sep :: r1 = d2 ++ sep :: r2 → d1 = d2 := by
  intro d1
  induction d1 with
  | nil =>
    intro d2 r1 r2 _ h2 h
    cases d2 with
    | nil => rfl
    | cons c d2 =>
      simp only [List.nil_append, List.cons_append, List.cons.injEq] at h
      exact absurd h.1.symm (h2 c (by simp))
  | cons c d1 ih =>
    intro d2 r1 r2 h1 h2 h
    cases d2 with
    | nil =>
      simp only [List.nil_append, List.cons_append, List.cons.injEq] at h
      exact absurd h.1 (h1 c (by simp))
    | cons c2 d2 =>
      simp only [List.cons_append, List.cons.injEq] at h
      rw [h.1, ih d2 r1 r2 (fun x hx => h1 x (by simp [hx])) (fun x hx => h2 x (by simp [hx])) h.2]

theorem metricName_data (m : domoticzMetric) :
    (metricName m).data
      = "domoticz_".data ++ (Nat.toDigits 10 m.Id ++ '_' :: (m.Type_.data ++ '_' :: m.SType.data)) := by
  simp [metricName, sprintfD, String.data_append]

theorem metricName_id_injective (m1 m2 : domoticzMetric)
    (h : metricName m1 = metricName m2) : m1.Id = m2.Id := by
  have hd : (metricName m1).data = (metricName m2).data := by rw [h]
  rw [metricName_data, metricName_data] at hd
  have hd2 := List.append_cancel_left hd
  exact toDigits_injective _ _
    (run_before_separator '_' _ _ _ _ (toDigits_no_underscore _) (toDigits_no_underscore _) hd2)

theorem digitChar_isNameChar (k : Nat) (hk : k < 10) : isNameChar (Nat.digitChar k) = true := by
  interval_cases k <;> decide

theorem toDigitsCore_isNameChar (fuel : Nat) :
    ∀ (n : Nat) (ds : List Char), ds.all isNameChar = true →
      (Nat.toDigitsCore 10 fuel n ds).all isNameChar = true := by
  induction fuel with
  | zero => intro n ds h; simpa [Nat.toDigitsCore] using h
  | succ fuel ih =>
    intro n ds h
    have hmod : n % 10 < 10 := Nat.mod_lt _ (by decide)
    have hcons : (Nat.digitChar (n % 10) :: ds).all isNameChar = true := by
      simp only [List.all_cons, Bool.and_eq_true]
      exact ⟨digitChar_isNameChar _ hmod, h⟩
    simp only [Nat.toDigitsCore]
    by_cases h0 : n / 10 = 0
    · simpa only [h0, if_true] using hcons
    · simpa only [h0, if_false] using ih (n / 10) _ hcons

/-- The name `metricName` builds is a valid metric name exactly when the report's type
and subtype strings consist of letters, digits, `_` and `:` only. -/
theorem metricName_valid_iff (m : domoticzMetric) :
    IsValidMetricName (metricName m)
      = (m.Type_.data.all isNameChar && m.SType.data.all isNameChar) := by
  have hpre : "domoticz_".data = ['d', 'o', 'm', 'o', 't', 'i', 'c', 'z', '_'] := rfl
  have hdig : (Nat.toDigits 10 m.Id).all isNameChar = true :=
    toDigitsCore_isNameChar (m.Id + 1) m.Id [] rfl
  have hd : isNameStart 'd' = true := by decide
  have ho : isNameChar 'o' = true := by decide
  have hm : isNameChar 'm' = true := by decide
  have ht : isNameChar 't' = true := by decide
  have hi : isNameChar 'i' = true := by decide
  have hc : isNameChar 'c' = true := by decide
  have hz : isNameChar 'z' = true := by decide
  have hu : isNameChar '_' = true := by decide
  unfold IsValidMetricName
  rw [metricName_data, hpre]
  simp only [List.cons_append, List.nil_append, List.all_cons, List.all_append, hd, ho, hm, ht,
    hi, hc, hz, hu, hdig, Bool.true_and]

/-! ## Lemmas on map assignment, deletion and the sweep -/

theorem mem_mapDelete (m : SampleMap) (k : Nat) (e : Nat × domoticzSample) :
    e ∈ mapDelete m k ↔ e ∈ m ∧ e.1 ≠ k := by
  simp [mapDelete]

theorem mem_mapAssign (m : SampleMap) (k : Nat) (v : domoticzSample)
    (e : Nat × domoticzSample) :
    e ∈ mapAssign m k v ↔ (e ∈ m ∧ e.1 ≠ k) ∨ e = (k, v) := by
  simp [mapAssign, mem_mapDelete]

theorem mapAssign_filter_same (m : SampleMap) (k : Nat) (v : domoticzSample) :
    (mapAssign m k v).filter (fun e => e.1 == k) = [(k, v)] := by
  simp only [mapAssign, mapDelete, List.filter_append, List.filter_filter]
  have h : m.filter (fun e => (e.1 == k) && (e.1 != k)) = [] := by
    apply List.filter_eq_nil_iff.mpr
    intro e _
    by_cases hk : e.1 = k <;> simp [hk]
  simp [h]

theorem mapAssign_filter_other (m : SampleMap) (k j : Nat) (v : domoticzSample)
    (hj : j ≠ k) :
    (mapAssign m k v).filter (fun e => e.1 == j) = m.filter (fun e => e.1 == j) := by
  simp only [mapAssign, mapDelete, List.filter_append, List.filter_filter]
  have hk : ¬ k = j := fun h => hj h.symm
  have h : m.filter (fun e => (e.1 == j) && (e.1 != k)) = m.filter (fun e => e.1 == j) := by
    apply List.filter_congr
    intro e _
    by_cases he : e.1 = j
    · simp [he, hj]
    · simp [he]
  simp [h, hk]

theorem mapLookup_eq_head (m : SampleMap) (k : Nat) :
    mapLookup m k = ((m.filter (fun e => e.1 == k)).head?).map Prod.snd := by
  unfold mapLookup
  induction m with
  | nil => rfl
  | cons e m ih =>
    by_cases he : e.1 = k
    · simp [List.find?_cons, List.filter_cons, he]
    · simp [List.find?_cons, List.filter_cons, he]

theorem mapDelete_absent (m : SampleMap) (k : Nat) (h : k ∉ m.map Prod.fst) :
    mapDelete m k = m := by
  apply List.filter_eq_self.mpr
  intro e he
  have : e.1 ≠ k := by
    intro hk
    exact h (hk ▸ List.mem_map_of_mem Prod.fst he)
  simp [this]

theorem mapWF_unique (m : SampleMap) (h : mapWF m) (d e : Nat × domoticzSample)
    (hd : d ∈ m) (he : e ∈ m) (hk : d.1 = e.1) : d = e :=
  List.inj_on_of_nodup_map h hd he hk

theorem mapWF_delete (m : SampleMap) (k : Nat) (h : mapWF m) : mapWF (mapDelete m k) := by
  unfold mapWF mapDelete
  exact List.Nodup.sublist (List.Sublist.map _ (List.filter_sublist _)) h

theorem mapWF_assign (m : SampleMap) (k : Nat) (v : domoticzSample) (h : mapWF m) :
    mapWF (mapAssign m k v) := by
  have hd := mapWF_delete m k h
  unfold mapWF at hd ⊢
  simp only [mapAssign, List.map_append, List.map_cons, List.map_nil]
  apply List.Nodup.append hd (by simp)
  intro a ha hk
  simp only [List.mem_singleton] at hk
  subst hk
  obtain ⟨e, he, rfl⟩ := List.mem_map.mp ha
  exact ((mem_mapDelete m _ e).mp he).2 rfl

theorem sweepExpired_eq (m : SampleMap) (now : Time) (h : mapWF m) :
    sweepExpired m now = m.filter (fun e => !expiredAt now e.2) := by
  unfold sweepExpired
  rw [sweep_fold_eq]
  apply List.filter_congr
  intro e he
  by_cases hx : expiredAt now e.2 = true
  · have : (m.any fun d => d.1 == e.1 && expiredAt now d.2) = true :=
      List.any_eq_true.mpr ⟨e, he, by simp [hx]⟩
    simp [this, hx]
  · have : (m.any fun d => d.1 == e.1 && expiredAt now d.2) = false := by
      apply Bool.eq_false_iff.mpr
      intro hany
      obtain ⟨d, hd, hp⟩ := List.any_eq_true.mp hany
      simp only [Bool.and_eq_true, beq_iff_eq] at hp
      have := mapWF_unique m h d e hd he hp.1
      rw [this] at hp
      exact hx hp.2
    simp only [this]
    simpa using hx

theorem mapWF_sweep (m : SampleMap) (now : Time) (h : mapWF m) :
    mapWF (sweepExpired m now) := by
  rw [sweepExpired_eq m now h]
  unfold mapWF
  exact List.Nodup.sublist (List.Sublist.map _ (List.filter_sublist _)) h

/-- Every store the worker can reach from a map has pairwise distinct keys. -/
theorem mapWF_runWorker (evs : List WorkerEvent) :
    ∀ c : domoticzCollector, mapWF c.samples → mapWF (runWorker c evs).samples := by
  induction evs with
  | nil => intro c h; exact h
  | cons ev evs ih =>
    intro c h
    simp only [runWorker, List.foldl_cons]
    apply ih
    cases ev with
    | sample s => exact mapWF_assign _ _ _ h
    | ticker now => exact mapWF_sweep _ _ h

theorem mem_sweepExpired (m : SampleMap) (now : Time) (e : Nat × domoticzSample)
    (he : e ∈ sweepExpired m now) : e ∈ m ∧ expiredAt now e.2 = false := by
  unfold sweepExpired at he
  rw [sweep_fold_eq] at he
  obtain ⟨hm, hp⟩ := List.mem_filter.mp he
  refine ⟨hm, ?_⟩
  by_contra hx
  have hx2 : expiredAt now e.2 = true := by simpa using hx
  have : (m.any fun d => d.1 == e.1 && expiredAt now d.2) = true :=
    List.any_eq_true.mpr ⟨e, hm, by simp [hx2]⟩
  simp [this] at hp

theorem live_after_filter (P : Nat × domoticzSample → Bool) (Q : domoticzSample → Bool)
    (l : SampleMap) (h : ∀ e ∈ l, Q e.2 = true → P e = true) :
    ((l.filter P).map Prod.snd).filter Q = (l.map Prod.snd).filter Q := by
  induction l with
  | nil => rfl
  | cons e l ih =>
    have ih2 := ih (fun d hd => h d (List.mem_cons_of_mem _ hd))
    by_cases hp : P e = true
    · simp [List.filter_cons, hp, ih2]
    · have hq : Q e.2 = false := by
        cases hq : Q e.2
        · rfl
        · exact absurd (h e (List.mem_cons_self _ _) hq) hp
      simp [List.filter_cons, hp, hq, ih2]

theorem onlyRecord_step (k : Nat) (r : domoticzSample) (c : domoticzCollector)
    (ev : WorkerEvent) (h : onlyRecord k r c.samples)
    (hev : ∀ s, ev = WorkerEvent.sample s → s.Id ≠ k) :
    onlyRecord k r (processSamples c ev).samples := by
  intro e he hk
  cases ev with
  | sample s =>
    rcases (mem_mapAssign _ _ _ e).mp he with ⟨hm, _⟩ | heq
    · exact h e hm hk
    · exfalso
      apply hev s rfl
      rw [heq] at hk
      exact hk
  | ticker now => exact h e (mem_sweepExpired _ _ e he).1 hk

theorem onlyRecord_run (k : Nat) (r : domoticzSample) (evs : List WorkerEvent) :
    ∀ c : domoticzCollector, onlyRecord k r c.samples →
      (∀ s, WorkerEvent.sample s ∈ evs → s.Id ≠ k) →
      onlyRecord k r (runWorker c evs).samples := by
  induction evs with
  | nil => intro c h _; exact h
  | cons ev evs ih =>
    intro c h hq
    simp only [runWorker, List.foldl_cons]
    apply ih
    · exact onlyRecord_step k r c ev h (fun s hs => hq s (by simp [hs]))
    · intro s hs
      exact hq s (List.mem_cons_of_mem _ hs)

theorem run_pushes (ps : List (domoticzMetric × Time)) :
    ∀ acc : SampleMap, (ps.map (fun p => p.1.Id)).Nodup →
      (∀ p ∈ ps, p.1.Id ∉ acc.map Prod.fst) →
      (runWorker ⟨acc⟩ (ps.map (fun p => WorkerEvent.sample (newSample p.1 p.2)))).samples
        = acc ++ ps.map (fun p => (p.1.Id, newSample p.1 p.2)) := by
  induction ps with
  | nil => intro acc _ _; simp [runWorker]
  | cons p ps ih =>
    intro acc hnd hfresh
    simp only [List.map_cons, List.nodup_cons] at hnd
    simp only [runWorker, List.map_cons, List.foldl_cons, processSamples]
    have hid : (newSample p.1 p.2).Id = p.1.Id := rfl
    rw [hid]
    have hacc : mapAssign acc p.1.Id (newSample p.1 p.2)
        = acc ++ [(p.1.Id, newSample p.1 p.2)] := by
      unfold mapAssign
      rw [mapDelete_absent acc _ (hfresh p (List.mem_cons_self _ _))]
    rw [hacc]
    have := ih (acc ++ [(p.1.Id, newSample p.1 p.2)]) hnd.2 (by
      intro q hq hmem
      simp only [List.map_append, List.map_cons, List.map_nil, List.mem_append,
        List.mem_singleton] at hmem
      rcases hmem with hmem | hmem
      · exact hfresh q (List.mem_cons_of_mem _ hq) hmem
      · exact hnd.1 (hmem ▸ List.mem_map_of_mem (fun p => p.1.Id) hq))
    simp only [runWorker] at this
    rw [this]
    simp

/-! ## Lemmas on the decoder -/

theorem storeField_isSome (ops : Float64Ops) (a b : domoticzMetric) (f : Field) (v : JSON) :
    (storeField ops a f v).isSome = (storeField ops b f v).isSome := by
  cases f <;> cases v <;> simp [storeField]

theorem storeField_other (ops : Float64Ops) (a b : domoticzMetric) (f g : Field) (v : JSON)
    (h : storeField ops a g v = some b) (hne : g ≠ f) : sameField f a b := by
  cases g <;> cases v <;> simp [storeField] at h <;> cases f <;>
    first
    | exact absurd rfl hne
    | (subst h; exact rfl)
    | (obtain ⟨_, _, rfl⟩ := h; exact rfl)

theorem sameField_refl (f : Field) (a : domoticzMetric) : sameField f a a := by
  cases f <;> exact rfl

theorem sameField_trans (f : Field) (a b c : domoticzMetric)
    (h1 : sameField f a b) (h2 : sameField f b c) : sameField f a c := by
  cases f <;> exact Eq.trans h1 h2

theorem decodeMembers_untouched (ops : Float64Ops) (f : Field)
    (members : List (String × JSON)) :
    ∀ a b : domoticzMetric, (∀ kv ∈ members, lookupField kv.1 ≠ some f) →
      decodeMembers ops members a = some b → sameField f a b := by
  induction members with
  | nil =>
    intro a b _ h
    simp only [decodeMembers, Option.some.injEq] at h
    subst h
    exact sameField_refl f a
  | cons kv members ih =>
    intro a b hno h
    obtain ⟨key, v⟩ := kv
    have hrest : ∀ kv ∈ members, lookupField kv.1 ≠ some f :=
      fun kv hkv => hno kv (List.mem_cons_of_mem _ hkv)
    have hkey : lookupField key ≠ some f := hno (key, v) (List.mem_cons_self _ _)
    simp only [decodeMembers] at h
    cases hl : lookupField key with
    | none =>
      simp only [hl] at h
      exact ih a b hrest h
    | some g =>
      simp only [hl] at h
      have hg : g ≠ f := fun hgf => hkey (by rw [hl, hgf])
      cases hs : storeField ops a g v with
      | none => simp [hs] at h
      | some a1 =>
        simp only [hs] at h
        exact sameField_trans f a a1 b (storeField_other ops a a1 f g v hs hg)
          (ih a1 b hrest h)

theorem decodeMembers_accepts (ops : Float64Ops) (members : List (String × JSON)) :
    ∀ a : domoticzMetric, (∀ kv ∈ members, memberAccepted ops kv = true) →
      ∃ b, decodeMembers ops members a = some b := by
  induction members with
  | nil => intro a _; exact ⟨a, rfl⟩
  | cons kv members ih =>
    intro a hok
    obtain ⟨key, v⟩ := kv
    have hrest : ∀ kv ∈ members, memberAccepted ops kv = true :=
      fun kv hkv => hok kv (List.mem_cons_of_mem _ hkv)
    have hkv := hok (key, v) (List.mem_cons_self _ _)
    simp only [memberAccepted] at hkv
    simp only [decodeMembers]
    cases hl : lookupField key with
    | none => exact ih a hrest
    | some g =>
      simp only [hl] at hkv
      rw [storeField_isSome ops domoticzMetric.zero a g v] at hkv
      obtain ⟨a1, ha1⟩ := Option.isSome_iff_exists.mp hkv
      simp only [ha1]
      exact ih a1 hrest

/-! ## The claims -/

/-- C1 (evaluation of the code): the kind of the sample built by `domoticzPost` is
`metricType` of the report's `Name` field, not of its `Type` field; the report
`{id:5, type:"counter", sType:"energy", name:"kWh", unit:"kWh"}` therefore yields a
Gauge sample, whatever its value and the time of the push. -/
theorem C1_kind_is_computed_from_name :
    (∀ (m : domoticzMetric) (now : Time), (newSample m now).Type_ = metricType m.Name) ∧
    (∀ (v : float64) (now : Time),
      (newSample ⟨5, "counter", "energy", "kWh", v, "", "kWh"⟩ now).Type_
        = ValueType.GaugeValue) ∧
    metricType "counter" = ValueType.CounterValue := by
  refine ⟨fun _ _ => rfl, fun _ _ => ?_, ?_⟩
  · show metricType "kWh" = ValueType.GaugeValue
    decide
  · decide

/-- C2: a sample pushed at time `T` expires at `T + 600 s`; if no later push carries
its id, then whatever pushes of other ids and sweep ticks the worker processes
afterwards, a scrape at any time strictly later than `T + 600 s` emits nothing for it:
a record still stored under that id is the pushed sample and is skipped as expired,
and the emitted stream is the one `Collect` emits with that id deleted from the store. -/
theorem C2_expired_sample_not_collected (lastPush : float64) (c : domoticzCollector)
    (m : domoticzMetric) (T : Time) (evs : List WorkerEvent) (now : Time)
    (hquiet : ∀ s, WorkerEvent.sample s ∈ evs → s.Id ≠ m.Id)
    (hlate : T + 600 * Second < now) :
    let c1 := runWorker (processSamples c (WorkerEvent.sample (newSample m T))) evs
    (newSample m T).Expires = T + 600 * Second ∧
    (∀ e ∈ c1.samples, e.1 = m.Id → e.2 = newSample m T ∧ expiredAt now e.2 = true) ∧
    Collect lastPush c1 now = Collect lastPush ⟨mapDelete c1.samples m.Id⟩ now := by
  intro c1
  have hexp : (newSample m T).Expires = T + 600 * Second := by
    simp only [newSample, Time.Add]
    congr 1
  have hbase : onlyRecord m.Id (newSample m T)
      (processSamples c (WorkerEvent.sample (newSample m T))).samples := by
    intro e he hk
    rcases (mem_mapAssign _ _ _ e).mp he with ⟨_, hne⟩ | heq
    · exact absurd hk hne
    · rw [heq]
  have hinv : onlyRecord m.Id (newSample m T) c1.samples :=
    onlyRecord_run _ _ evs _ hbase hquiet
  have hdead : ∀ e ∈ c1.samples, e.1 = m.Id → expiredAt now e.2 = true := by
    intro e he hk
    rw [hinv e he hk]
    simp only [expiredAt, Time.After, hexp, decide_eq_true_eq]
    exact hlate
  refine ⟨hexp, fun e he hk => ⟨hinv e he hk, hdead e he hk⟩, ?_⟩
  have hlive : liveSamples ⟨mapDelete c1.samples m.Id⟩ now = liveSamples c1 now :=
    live_after_filter (fun e => e.1 != m.Id) (fun r => !expiredAt now r) c1.samples
      (fun e he hq => by
        by_cases hk : e.1 = m.Id
        · have := hdead e he hk
          simp [this] at hq
        · simp [hk])
  rw [Collect_eq, Collect_eq, hlive]

/-- C3: after two pushes with the same id are accepted one after the other, the store
holds exactly one record under that id, it is the second push's sample in full
(name, help, labels, value, kind and an expiry of the second push's time plus
2 × 300 s, all computed from the second report alone), and the records under every
other id are the ones the store held before. -/
theorem C3_second_push_replaces_first (c : domoticzCollector) (m1 m2 : domoticzMetric)
    (t1 t2 : Time) (hid : m1.Id = m2.Id) :
    let c2 := runWorker c
      [WorkerEvent.sample (newSample m1 t1), WorkerEvent.sample (newSample m2 t2)]
    c2.samples.filter (fun e => e.1 == m2.Id) = [(m2.Id, newSample m2 t2)] ∧
    mapLookup c2.samples m2.Id = some (newSample m2 t2) ∧
    newSample m2 t2
      = { Id := m2.Id, Name := metricName m2, Labels := [], Help := metricHelp m2,
          Value := m2.Value, DType := "", Dstype := "", Time := float64.zero,
          Type_ := metricType m2.Name, Unit := "", Expires := t2 + 2 * (300 * Second) } ∧
    (∀ k : Nat, k ≠ m2.Id →
      c2.samples.filter (fun e => e.1 == k) = c.samples.filter (fun e => e.1 == k) ∧
      mapLookup c2.samples k = mapLookup c.samples k) := by
  intro c2
  have hc2 : c2.samples
      = mapAssign (mapAssign c.samples m2.Id (newSample m1 t1)) m2.Id (newSample m2 t2) := by
    show (runWorker c _).samples = _
    simp only [runWorker, List.foldl_cons, List.foldl_nil, processSamples]
    have h1 : (newSample m1 t1).Id = m2.Id := hid
    have h2 : (newSample m2 t2).Id = m2.Id := rfl
    rw [h1, h2]
  have hsame := mapAssign_filter_same (mapAssign c.samples m2.Id (newSample m1 t1)) m2.Id
    (newSample m2 t2)
  refine ⟨?_, ?_, ?_, ?_⟩
  · rw [hc2]; exact hsame
  · rw [mapLookup_eq_head, hc2, hsame]; rfl
  · simp only [newSample, Time.Add]
    congr 1
  · intro k hk
    have hf : c2.samples.filter (fun e => e.1 == k) = c.samples.filter (fun e => e.1 == k) := by
      rw [hc2, mapAssign_filter_other _ _ _ _ hk, mapAssign_filter_other _ _ _ _ hk]
    refine ⟨hf, ?_⟩
    rw [mapLookup_eq_head, mapLookup_eq_head, hf]

/-- C4 (counterexample): a stored, non-expired record whose name is not a valid metric
name (a report of type `Temp + Humidity` pushed a moment earlier) gets no metric: the
scrape sends the liveness gauge and then panics in `MustNewConstMetric`. -/
theorem C4_invalid_name_aborts_scrape :
    expiredAt 1 (newSample ⟨5, "Temp + Humidity", "THB1", "Outside", ⟨0⟩, "", "C"⟩ 0) = false ∧
    Collect ⟨0⟩
        (processSamples newDomoticzCollector
          (WorkerEvent.sample
            (newSample ⟨5, "Temp + Humidity", "THB1", "Outside", ⟨0⟩, "", "C"⟩ 0)))
        1
      = ⟨[lastPushMetric ⟨0⟩], true⟩ := by
  decide

/-- C4 (amended): for every store and scrape time such that each stored record not
expired at the scrape time has a descriptor the client library accepts, `Collect`
returns normally having sent the liveness gauge first, with its current value (zero in
the start-up state), followed by one metric for each stored record that is not expired
and none for an expired one, each built from the record's name, help, labels, kind and
value as stored; with an empty store, or a store of expired records only, the stream is
the liveness gauge alone, and the liveness gauge is always the first metric sent. -/
theorem C4_collect_stream (lastPush : float64) (c : domoticzCollector) (now : Time)
    (haccepted : ∀ e ∈ c.samples, expiredAt now e.2 = false →
      descAccepted e.2.Name e.2.Labels = true) :
    Collect lastPush c now
      = ⟨lastPushMetric lastPush ::
          ((c.samples.map Prod.snd).filter (fun s => !expiredAt now s)).map
            (fun s => (⟨s.Name, s.Help, s.Labels, s.Type_, s.Value⟩ : Metric)),
         false⟩ ∧
    (lastPushMetric lastPush).Value = lastPush ∧
    scrape Exporter.init now = ⟨[lastPushMetric float64.zero], false⟩ ∧
    Collect lastPush newDomoticzCollector now = ⟨[lastPushMetric lastPush], false⟩ ∧
    Collect lastPush ⟨c.samples.filter (fun e => expiredAt now e.2)⟩ now
      = ⟨[lastPushMetric lastPush], false⟩ ∧
    (Collect lastPush c now).sent.head? = some (lastPushMetric lastPush) := by
  have hall : ∀ s ∈ liveSamples c now, sampleAccepted s = true := by
    intro s hs
    obtain ⟨hmem, hlive⟩ := List.mem_filter.mp hs
    obtain ⟨e, he, rfl⟩ := List.mem_map.mp hmem
    exact haccepted e he (by simpa using hlive)
  refine ⟨Collect_eq_of_accepted lastPush c now hall, rfl, rfl, rfl, ?_, ?_⟩
  · have hnone : liveSamples ⟨c.samples.filter (fun e => expiredAt now e.2)⟩ now = [] := by
      unfold liveSamples
      apply List.filter_eq_nil_iff.mpr
      intro s hs
      obtain ⟨e, he, rfl⟩ := List.mem_map.mp hs
      have := (List.mem_filter.mp he).2
      simp [this]
    rw [Collect_eq, hnone]
    rfl
  · rw [Collect_eq]
    rfl

/-- C5 (counterexample): a record whose expiry equals the tick time exactly is still in
the store after the sweep at that time. -/
theorem C5_sweep_keeps_record_expiring_now :
    ∃ e ∈ (processSamples ⟨[(1, newSample ⟨1, "", "", "", ⟨0⟩, "", ""⟩ 0)]⟩
              (WorkerEvent.ticker 600000000000)).samples,
      e.2.Expires ≤ 600000000000 := by
  decide

/-- C5 (amended): after the worker's sweep step at `now` the store contains no record
whose expiry is strictly less than `now`; the sweep removes exactly those records, so a
record whose expiry equals `now` is kept. -/
theorem C5_sweep_removes_strictly_expired (c : domoticzCollector) (now : Time) :
    (∀ e ∈ (processSamples c (WorkerEvent.ticker now)).samples, ¬ e.2.Expires < now) ∧
    (mapWF c.samples →
      (processSamples c (WorkerEvent.ticker now)).samples
        = c.samples.filter (fun e => decide (now ≤ e.2.Expires))) := by
  constructor
  · intro e he
    have h := (mem_sweepExpired c.samples now e he).2
    simpa [expiredAt, Time.After] using h
  · intro hwf
    show sweepExpired c.samples now = _
    rw [sweepExpired_eq _ _ hwf]
    apply List.filter_congr
    intro e _
    simp only [expiredAt, Time.After]
    by_cases h : now ≤ e.2.Expires
    · simp [h, not_lt.mpr h]
    · simp [h, not_le.mp h]

/-- C6: when the request body fails to decode, `domoticzPost` answers 400, sends no
sample to the worker and leaves the liveness gauge as it was; the served request
leaves the whole state (gauge and store) unchanged. -/
theorem C6_decode_failure_changes_nothing (ops : Float64Ops) (x : Exporter)
    (body : Option JSON) (now : Time) (hfail : Decode ops body = none) :
    domoticzPost ops x.lastPush body now = ⟨StatusBadRequest, x.lastPush, none⟩ ∧
    StatusBadRequest = 400 ∧
    servePost ops x body now = (StatusBadRequest, x) := by
  have h : domoticzPost ops x.lastPush body now = ⟨StatusBadRequest, x.lastPush, none⟩ := by
    simp [domoticzPost, hfail]
  refine ⟨h, rfl, ?_⟩
  simp [servePost, h]

/-- C7 (counterexample): the body `{}` is not rejected: it decodes to the zero report,
the response status is 200, the state changes and the next scrape shows a new metric. -/
theorem C7_empty_object_is_accepted :
    Decode exampleOps (some (JSON.object [])) = some domoticzMetric.zero ∧
    (servePost exampleOps Exporter.init (some (JSON.object [])) 1000000000).1 = StatusOK ∧
    (servePost exampleOps Exporter.init (some (JSON.object [])) 1000000000).2
      ≠ Exporter.init ∧
    scrape (servePost exampleOps Exporter.init (some (JSON.object [])) 1000000000).2
        1000000000
      ≠ scrape Exporter.init 1000000000 := by
  decide

/-- C7 (amended): a body that is a JSON object whose members each either name no field
of the report or carry a value the named field accepts is decoded successfully, however
many of the report's fields it is missing: every field no member names keeps its zero
value, the response status is 200, the liveness gauge is set from `now` and the sample
built from the decoded report is stored under its id. -/
theorem C7_object_with_missing_fields_is_accepted (ops : Float64Ops) (x : Exporter)
    (members : List (String × JSON)) (now : Time)
    (hok : ∀ kv ∈ members, memberAccepted ops kv = true) :
    ∃ m : domoticzMetric,
      Decode ops (some (JSON.object members)) = some m ∧
      (∀ f : Field, (∀ kv ∈ members, lookupField kv.1 ≠ some f) →
        sameField f domoticzMetric.zero m) ∧
      servePost ops x (some (JSON.object members)) now
        = (StatusOK,
            ⟨ops.unixSeconds now, ⟨mapAssign x.c.samples m.Id (newSample m now)⟩⟩) := by
  obtain ⟨m, hm⟩ := decodeMembers_accepts ops members domoticzMetric.zero hok
  have hdec : Decode ops (some (JSON.object members)) = some m := hm
  refine ⟨m, hdec, ?_, ?_⟩
  · intro f hf
    exact decodeMembers_untouched ops f members _ _ hf hm
  · simp only [servePost, domoticzPost, hdec, processSamples]
    rfl

/-- C8 (counterexample): one push (`N = 1`) of a report of type `Temp + Humidity` into
the empty store, scraped before it expires, yields no sample metric at all: the scrape
sends the liveness gauge only and panics. -/
theorem C8_invalid_name_push_yields_no_metric :
    ([((⟨5, "Temp + Humidity", "THB1", "Outside", ⟨0⟩, "", "C"⟩ : domoticzMetric),
        (0 : Time))].map (fun p => p.1.Id)).Nodup ∧
    (Collect ⟨0⟩
        (runWorker newDomoticzCollector
          ([((⟨5, "Temp + Humidity", "THB1", "Outside", ⟨0⟩, "", "C"⟩ : domoticzMetric),
              (0 : Time))].map
            (fun p => WorkerEvent.sample (newSample p.1 p.2))))
        100).sent.tail.length = 0 ∧
    (Collect ⟨0⟩
        (runWorker newDomoticzCollector
          ([((⟨5, "Temp + Humidity", "THB1", "Outside", ⟨0⟩, "", "C"⟩ : domoticzMetric),
              (0 : Time))].map
            (fun p => WorkerEvent.sample (newSample p.1 p.2))))
        100).panicked = true := by
  decide

/-- C8 (amended): when the worker accepts, in any order, `N` pushes with pairwise
distinct ids into the empty store, each of a report whose metric name is a valid metric
name, a scrape taken while none of them is expired returns normally having sent the
liveness gauge followed by exactly `N` sample metrics: the metrics of the `N` pushed
samples, each once (up to order), with pairwise distinct names. -/
theorem C8_distinct_pushes_all_collected (lastPush : float64)
    (ps : List (domoticzMetric × Time)) (now : Time)
    (hdistinct : (ps.map (fun p => p.1.Id)).Nodup)
    (hlive : ∀ p ∈ ps, now ≤ p.2 + 600 * Second)
    (hvalid : ∀ p ∈ ps, IsValidMetricName (metricName p.1) = true) :
    let c := runWorker newDomoticzCollector
      (ps.map (fun p => WorkerEvent.sample (newSample p.1 p.2)))
    let out := Collect lastPush c now
    out.panicked = false ∧
    out.sent.head? = some (lastPushMetric lastPush) ∧
    out.sent.tail.length = ps.length ∧
    out.sent.tail.Perm (ps.map (fun p => sampleMetric (newSample p.1 p.2))) ∧
    (out.sent.tail.map Metric.Name).Nodup := by
  intro c out
  have hc : c.samples = ps.map (fun p => (p.1.Id, newSample p.1 p.2)) := by
    have := run_pushes ps [] hdistinct (by simp)
    simpa [newDomoticzCollector] using this
  have hall : ∀ s ∈ ps.map (fun p => newSample p.1 p.2), (!expiredAt now s) = true := by
    intro s hs
    obtain ⟨p, hp, rfl⟩ := List.mem_map.mp hs
    have h1 := hlive p hp
    have hexp : (newSample p.1 p.2).Expires = p.2 + 600 * Second := by
      simp only [newSample, Time.Add]
      congr 1
    simp only [expiredAt, Time.After, hexp, Bool.not_eq_true', decide_eq_false_iff_not, not_lt]
    exact h1
  have hlv : liveSamples c now = ps.map (fun p => newSample p.1 p.2) := by
    unfold liveSamples
    rw [hc]
    simp only [List.map_map]
    exact List.filter_eq_self.mpr (by simpa [List.map_map] using hall)
  have hacc : ∀ s ∈ liveSamples c now, sampleAccepted s = true := by
    intro s hs
    rw [hlv] at hs
    obtain ⟨p, hp, rfl⟩ := List.mem_map.mp hs
    have hv := hvalid p hp
    simp only [sampleAccepted, descAccepted, newSample, List.all_nil, Bool.and_true]
    exact hv
  have hout : out = ⟨lastPushMetric lastPush ::
      ps.map (fun p => sampleMetric (newSample p.1 p.2)), false⟩ := by
    show Collect lastPush c now = _
    rw [Collect_eq_of_accepted lastPush c now hacc, hlv]
    simp [List.map_map]
  rw [hout]
  refine ⟨rfl, rfl, by simp, List.Perm.refl _, ?_⟩
  simp only [List.tail_cons, List.map_map]
  have hps : ps.Nodup := List.Nodup.of_map _ hdistinct
  apply (List.nodup_map_iff_inj_on hps).mpr
  intro p hp q hq hname
  have hid : p.1.Id = q.1.Id := metricName_id_injective p.1 q.1 hname
  exact List.inj_on_of_nodup_map hdistinct hp hq hid

/-- C9: `metricName` is injective in the sensor id: reports with different ids have
different metric names, whatever their type and subtype strings are. -/
theorem C9_metricName_injective_in_id (m1 m2 : domoticzMetric) (hid : m1.Id ≠ m2.Id) :
    metricName m1 ≠ metricName m2 :=
  fun h => hid (metricName_id_injective m1 m2 h)

/-- C10: a sweep at time `s` is invisible to a scrape at any time `n` with `s ≤ n`:
`Collect` emits the same metrics on the swept store as on the unswept one, and every
record a scrape at `n` would emit is still in the swept store, unaltered. -/
theorem C10_sweep_invisible_to_scrape (lastPush : float64) (c : domoticzCollector)
    (s n : Time) (hwf : mapWF c.samples) (hsn : s ≤ n) :
    Collect lastPush (processSamples c (WorkerEvent.ticker s)) n = Collect lastPush c n ∧
    (∀ e ∈ c.samples, expiredAt n e.2 = false →
      e ∈ (processSamples c (WorkerEvent.ticker s)).samples) := by
  have hsw : (processSamples c (WorkerEvent.ticker s)).samples
      = c.samples.filter (fun e => !expiredAt s e.2) := sweepExpired_eq _ _ hwf
  have hmono : ∀ r : domoticzSample, expiredAt n r = false → expiredAt s r = false := by
    intro r hr
    simp only [expiredAt, Time.After, decide_eq_false_iff_not, not_lt] at hr ⊢
    exact le_trans hsn hr
  constructor
  · have hlive : liveSamples (processSamples c (WorkerEvent.ticker s)) n = liveSamples c n := by
      unfold liveSamples
      rw [hsw]
      exact live_after_filter (fun e => !expiredAt s e.2) (fun r => !expiredAt n r) c.samples
        (fun e _ hr => by
          have hn : expiredAt n e.2 = false := by simpa using hr
          simp [hmono e.2 hn])
    rw [Collect_eq, Collect_eq, hlive]
  · intro e he hn
    rw [hsw]
    exact List.mem_filter.mpr ⟨he, by simp [hmono _ hn]⟩

/-! ## Instances of the conditional theorems -/

/-- C2 at a concrete history: a push of id 5 at time 0, then a tick and a push of id 6, scraped just after the expiry of the first push. -/
theorem C2_witness :
    (∀ s, WorkerEvent.sample s ∈
        [WorkerEvent.ticker 1,
         WorkerEvent.sample (newSample ⟨6, "t", "s", "n", ⟨0⟩, "", "u"⟩ 10)] →
      s.Id ≠ (⟨5, "counter", "energy", "kWh", ⟨0⟩, "", "kWh"⟩ : domoticzMetric).Id) ∧
    (0 : Time) + 600 * Second < 600000000001 ∧
    Collect ⟨0⟩
        (runWorker
          (processSamples newDomoticzCollector
            (WorkerEvent.sample (newSample ⟨5, "counter", "energy", "kWh", ⟨0⟩, "", "kWh"⟩ 0)))
          [WorkerEvent.ticker 1,
           WorkerEvent.sample (newSample ⟨6, "t", "s", "n", ⟨0⟩, "", "u"⟩ 10)])
        600000000001
      = Collect ⟨0⟩
          ⟨mapDelete
            (runWorker
              (processSamples newDomoticzCollector
                (WorkerEvent.sample
                  (newSample ⟨5, "counter", "energy", "kWh", ⟨0⟩, "", "kWh"⟩ 0)))
              [WorkerEvent.ticker 1,
               WorkerEvent.sample (newSample ⟨6, "t", "s", "n", ⟨0⟩, "", "u"⟩ 10)]).samples
            5⟩
          600000000001 :=
  have h1 : ∀ s, WorkerEvent.sample s ∈
        [WorkerEvent.ticker 1,
         WorkerEvent.sample (newSample ⟨6, "t", "s", "n", ⟨0⟩, "", "u"⟩ 10)] →
      s.Id ≠ (⟨5, "counter", "energy", "kWh", ⟨0⟩, "", "kWh"⟩ : domoticzMetric).Id := by
    intro s hs
    simp only [List.mem_cons, List.mem_singleton, WorkerEvent.sample.injEq,
      List.mem_nil_iff, or_false, false_or, reduceCtorEq] at hs
    subst hs
    decide
  have h2 : (0 : Time) + 600 * Second < 600000000001 := by decide
  ⟨h1, h2,
    (C2_expired_sample_not_collected ⟨0⟩ newDomoticzCollector
      ⟨5, "counter", "energy", "kWh", ⟨0⟩, "", "kWh"⟩ 0
      [WorkerEvent.ticker 1,
       WorkerEvent.sample (newSample ⟨6, "t", "s", "n", ⟨0⟩, "", "u"⟩ 10)]
      600000000001 h1 h2).2.2⟩

/-- C3 at two pushes of id 5 into the empty store. -/
theorem C3_witness :
    (⟨5, "counter", "energy", "kWh", ⟨1⟩, "", "kWh"⟩ : domoticzMetric).Id
      = (⟨5, "gauge", "power", "W", ⟨2⟩, "", "W"⟩ : domoticzMetric).Id ∧
    mapLookup
        (runWorker newDomoticzCollector
          [WorkerEvent.sample (newSample ⟨5, "counter", "energy", "kWh", ⟨1⟩, "", "kWh"⟩ 3),
           WorkerEvent.sample (newSample ⟨5, "gauge", "power", "W", ⟨2⟩, "", "W"⟩ 4)]).samples
        5
      = some (newSample ⟨5, "gauge", "power", "W", ⟨2⟩, "", "W"⟩ 4) :=
  ⟨rfl,
    (C3_second_push_replaces_first newDomoticzCollector
      ⟨5, "counter", "energy", "kWh", ⟨1⟩, "", "kWh"⟩ ⟨5, "gauge", "power", "W", ⟨2⟩, "", "W"⟩
      3 4 rfl).2.1⟩

/-- C5 (amended) at a one-record store swept just after the record expired. -/
theorem C5_witness :
    mapWF [(1, newSample ⟨1, "", "", "", ⟨0⟩, "", ""⟩ 0)] ∧
    (processSamples ⟨[(1, newSample ⟨1, "", "", "", ⟨0⟩, "", ""⟩ 0)]⟩
        (WorkerEvent.ticker 600000000001)).samples
      = [(1, newSample ⟨1, "", "", "", ⟨0⟩, "", ""⟩ 0)].filter
          (fun e => decide ((600000000001 : Time) ≤ e.2.Expires)) :=
  ⟨by decide,
    (C5_sweep_removes_strictly_expired ⟨[(1, newSample ⟨1, "", "", "", ⟨0⟩, "", ""⟩ 0)]⟩
      600000000001).2 (by decide)⟩

/-- C6 at a body whose `id` member is a string. -/
theorem C6_witness :
    Decode exampleOps (some (JSON.object [("id", JSON.string "five")])) = none ∧
    servePost exampleOps Exporter.init (some (JSON.object [("id", JSON.string "five")])) 7
      = (StatusBadRequest, Exporter.init) :=
  ⟨by decide,
    (C6_decode_failure_changes_nothing exampleOps Exporter.init
      (some (JSON.object [("id", JSON.string "five")])) 7 (by decide)).2.2⟩

/-- C7 (amended) at a body with an `id` member and an unknown member only. -/
theorem C7_witness :
    (∀ kv ∈ [("id", JSON.number "5"), ("note", JSON.bool true)],
      memberAccepted exampleOps kv = true) ∧
    ∃ m : domoticzMetric,
      Decode exampleOps
          (some (JSON.object [("id", JSON.number "5"), ("note", JSON.bool true)])) = some m ∧
      (∀ f : Field,
        (∀ kv ∈ [("id", JSON.number "5"), ("note", JSON.bool true)],
          lookupField kv.1 ≠ some f) →
        sameField f domoticzMetric.zero m) ∧
      servePost exampleOps Exporter.init
          (some (JSON.object [("id", JSON.number "5"), ("note", JSON.bool true)])) 1000000000
        = (StatusOK,
            ⟨exampleOps.unixSeconds 1000000000,
             ⟨mapAssign Exporter.init.c.samples m.Id (newSample m 1000000000)⟩⟩) :=
  ⟨by decide,
    C7_object_with_missing_fields_is_accepted exampleOps Exporter.init
      [("id", JSON.number "5"), ("note", JSON.bool true)] 1000000000 (by decide)⟩

/-- C4 (amended) at a store holding one live record with a valid name and one expired
record with an invalid name. -/
theorem C4_witness :
    (∀ e ∈ [(5, newSample ⟨5, "counter", "energy", "kWh", ⟨1⟩, "", "kWh"⟩ 50),
            (6, newSample ⟨6, "Temp + Humidity", "THB1", "x", ⟨2⟩, "", "C"⟩ 0)],
      expiredAt 600000000010 e.2 = false → descAccepted e.2.Name e.2.Labels = true) ∧
    Collect ⟨0⟩
        ⟨[(5, newSample ⟨5, "counter", "energy", "kWh", ⟨1⟩, "", "kWh"⟩ 50),
          (6, newSample ⟨6, "Temp + Humidity", "THB1", "x", ⟨2⟩, "", "C"⟩ 0)]⟩
        600000000010
      = ⟨lastPushMetric ⟨0⟩ ::
          (([(5, newSample ⟨5, "counter", "energy", "kWh", ⟨1⟩, "", "kWh"⟩ 50),
             (6, newSample ⟨6, "Temp + Humidity", "THB1", "x", ⟨2⟩, "", "C"⟩ 0)].map
              Prod.snd).filter (fun s => !expiredAt 600000000010 s)).map
            (fun s => (⟨s.Name, s.Help, s.Labels, s.Type_, s.Value⟩ : Metric)),
         false⟩ :=
  ⟨by decide,
    (C4_collect_stream ⟨0⟩
      ⟨[(5, newSample ⟨5, "counter", "energy", "kWh", ⟨1⟩, "", "kWh"⟩ 50),
        (6, newSample ⟨6, "Temp + Humidity", "THB1", "x", ⟨2⟩, "", "C"⟩ 0)]⟩
      600000000010 (by decide)).1⟩

/-- C8 (amended) at two pushes with ids 5 and 7 and valid names. -/
theorem C8_witness :
    ([((⟨5, "a", "b", "c", ⟨1⟩, "", "u"⟩ : domoticzMetric), (0 : Time)),
      (⟨7, "a", "b", "c", ⟨2⟩, "", "u"⟩, 5)].map (fun p => p.1.Id)).Nodup ∧
    (∀ p ∈ [((⟨5, "a", "b", "c", ⟨1⟩, "", "u"⟩ : domoticzMetric), (0 : Time)),
            (⟨7, "a", "b", "c", ⟨2⟩, "", "u"⟩, 5)],
      (100 : Time) ≤ p.2 + 600 * Second) ∧
    (∀ p ∈ [((⟨5, "a", "b", "c", ⟨1⟩, "", "u"⟩ : domoticzMetric), (0 : Time)),
            (⟨7, "a", "b", "c", ⟨2⟩, "", "u"⟩, 5)],
      IsValidMetricName (metricName p.1) = true) ∧
    (Collect ⟨0⟩
        (runWorker newDomoticzCollector
          ([((⟨5, "a", "b", "c", ⟨1⟩, "", "u"⟩ : domoticzMetric), (0 : Time)),
            (⟨7, "a", "b", "c", ⟨2⟩, "", "u"⟩, 5)].map
            (fun p => WorkerEvent.sample (newSample p.1 p.2))))
        100).sent.tail.length = 2 :=
  ⟨by decide, by decide, by decide,
    (C8_distinct_pushes_all_collected ⟨0⟩
      [(⟨5, "a", "b", "c", ⟨1⟩, "", "u"⟩, 0), (⟨7, "a", "b", "c", ⟨2⟩, "", "u"⟩, 5)] 100
      (by decide) (by decide) (by decide)).2.2.1⟩

/-- C9 at the ids 1 and 12 with type strings chosen to make the names look alike. -/
theorem C9_witness :
    (⟨1, "2_x", "y", "", ⟨0⟩, "", ""⟩ : domoticzMetric).Id
      ≠ (⟨12, "x", "y", "", ⟨0⟩, "", ""⟩ : domoticzMetric).Id ∧
    metricName ⟨1, "2_x", "y", "", ⟨0⟩, "", ""⟩ ≠ metricName ⟨12, "x", "y", "", ⟨0⟩, "", ""⟩ :=
  ⟨by decide,
    C9_metricName_injective_in_id ⟨1, "2_x", "y", "", ⟨0⟩, "", ""⟩ ⟨12, "x", "y", "", ⟨0⟩, "", ""⟩
      (by decide)⟩

/-- C10 at a two-record store, swept and scraped after the first record expired. -/
theorem C10_witness :
    mapWF [(1, newSample ⟨1, "a", "b", "c", ⟨0⟩, "", ""⟩ 0),
           (2, newSample ⟨2, "a", "b", "c", ⟨0⟩, "", ""⟩ 50)] ∧
    (600000000020 : Time) ≤ 600000000030 ∧
    Collect ⟨0⟩
        (processSamples
          ⟨[(1, newSample ⟨1, "a", "b", "c", ⟨0⟩, "", ""⟩ 0),
            (2, newSample ⟨2, "a", "b", "c", ⟨0⟩, "", ""⟩ 50)]⟩
          (WorkerEvent.ticker 600000000020))
        600000000030
      = Collect ⟨0⟩
          ⟨[(1, newSample ⟨1, "a", "b", "c", ⟨0⟩, "", ""⟩ 0),
            (2, newSample ⟨2, "a", "b", "c", ⟨0⟩, "", ""⟩ 50)]⟩
          600000000030 :=
  ⟨by decide, by decide,
    (C10_sweep_invisible_to_scrape ⟨0⟩
      ⟨[(1, newSample ⟨1, "a", "b", "c", ⟨0⟩, "", ""⟩ 0),
        (2, newSample ⟨2, "a", "b", "c", ⟨0⟩, "", ""⟩ 50)]⟩
      600000000020 600000000030 (by decide) (by decide)).1⟩

end Domoticz
